import Mathlib

/-!
Verification of the HomeFinance CSV import script (`import-csv.py`).

The script is a single linear procedure: connect to a database, optionally
truncate the `transactions` table after an operator prompt, stream the CSV
rows, convert a few fields (empty string to null, `"True"`/other to 1/0,
numeric strings to decimals), insert each row with a per-row try/except that
counts failures, commit every 100 successfully imported rows plus once at end
of stream, and print a report with up to five sample rows ordered by
`transaction_date`.

The embedding below is a direct translation of that procedure into pure
functions.  The Python float parsing routine is not part of the repository, so the
numeric parser is a parameter `parse : String → Option Rat`; the claims only
ever distinguish parseable from unparseable strings.  Side effects on the
database are recorded as an explicit event trace (`truncate`, `insert`,
`commit`, `close`) and console report lines as an output list, so that the
ordering claims (truncate before inserts, commit cadence, connection close)
are statable.
-/

namespace ImportCsv

/-- The Python lowercasing method applied to the prompt response (line
46): lowercase every character. -/
def strLower (s : String) : String :=
  String.mk (s.data.map Char.toLower)

/-- Lexicographic comparison of two character lists by code point, the
ordering a string-typed `ORDER BY transaction_date` performs. -/
def charListLe : List Char → List Char → Bool
  | [], _ => true
  | _ :: _, [] => false
  | a :: as, b :: bs =>
    if a.toNat < b.toNat then true
    else if a.toNat = b.toNat then charListLe as bs
    else false

/-- One CSV row as produced by `csv.DictReader`: all sixteen header-named
fields, each a raw string. -/
structure Row where
  transaction_id : String
  transaction_date : String
  transaction_time : String
  account_id : String
  account_name : String
  account_type : String
  account_owner : String
  description : String
  category : String
  subcategory : String
  amount : String
  transaction_type : String
  balance_after : String
  is_recurring : String
  recurring_frequency : String
  notes : String
  deriving Repr, DecidableEq

/-- One row of the `transactions` table after the conversions of
`import_csv_data` (lines 76-98): `amount` and `balance_after` numeric,
`is_recurring` a nullable 0/1 flag, `recurring_frequency` and `notes`
nullable strings, the rest passed through. -/
structure ConvRow where
  transaction_id : String
  transaction_date : String
  transaction_time : String
  account_id : String
  account_name : String
  account_type : String
  account_owner : String
  description : String
  category : String
  subcategory : String
  amount : Rat
  transaction_type : String
  balance_after : Option Rat
  is_recurring : Option Nat
  recurring_frequency : Option String
  notes : Option String
  deriving Repr, DecidableEq

/-- The per-row conversion of lines 76-98 of `import-csv.py`, inside the
per-row `try`: empty strings become `none`; `is_recurring` maps `"True"` to
`1` and any other non-empty string to `0`; non-empty `balance_after` and
`amount` go through the numeric parser.  A parse failure raises in the
source, so here the whole conversion returns `none`. -/
def convertRow (parse : String → Option Rat) (r : Row) : Option ConvRow := do
  let is_rec : Option Nat :=
    if r.is_recurring = "" then none
    else some (if r.is_recurring = "True" then 1 else 0)
  let rec_freq : Option String :=
    if r.recurring_frequency = "" then none else some r.recurring_frequency
  let nts : Option String := if r.notes = "" then none else some r.notes
  let bal ← if r.balance_after = "" then some none
            else (parse r.balance_after).map some
  let amt ← parse r.amount
  pure
    { transaction_id := r.transaction_id
      transaction_date := r.transaction_date
      transaction_time := r.transaction_time
      account_id := r.account_id
      account_name := r.account_name
      account_type := r.account_type
      account_owner := r.account_owner
      description := r.description
      category := r.category
      subcategory := r.subcategory
      amount := amt
      transaction_type := r.transaction_type
      balance_after := bal
      is_recurring := is_rec
      recurring_frequency := rec_freq
      notes := nts }

/-- Database-side effects of a run, in order of occurrence. -/
inductive Event where
  | truncate
  | insert (c : ConvRow)
  | commit
  | close
  deriving Repr, DecidableEq

/-- Console report lines printed by the report step (lines 120-132):
the imported total, the error total (printed only when positive), and one
line per fetched sample row. -/
inductive ROut where
  | importedLine (n : Nat)
  | errorsLine (n : Nat)
  | sampleRow (c : ConvRow)
  deriving Repr, DecidableEq

/-- How the run of `import_csv_data` ended: operator-declined reimport,
normal completion with its two counters, or a fatal `sys.exit` code. -/
inductive RunResult where
  | cancelled
  | completed (imported errors : Nat)
  | fatal (code : Nat)
  deriving Repr, DecidableEq

/-- Outcome of `open(CSV_FILE)` plus the iteration over it: the file is
missing (`FileNotFoundError`, line 113), unreadable (the catch-all at line
116), or yields a list of rows. -/
inductive FileOutcome where
  | missing
  | readError
  | ok (rows : List Row)
  deriving Repr, DecidableEq

/-- State of the import loop of lines 63-108: the two counters, the rows
inserted so far (in order), and the event trace. -/
structure LoopOut where
  imported : Nat
  errors : Nat
  inserted : List ConvRow
  trace : List Event
  deriving Repr, DecidableEq

/-- The `for row in csv_reader` loop of lines 73-108, carrying the running
counters.  A failed conversion takes the `except` branch: the error counter
increments and nothing else happens.  A successful conversion emits the
insert, increments `imported`, and commits exactly when the new count is
divisible by 100 (line 102). -/
def importLoopGo (parse : String → Option Rat) :
    Nat → Nat → List Row → LoopOut
  | imported, errors, [] => ⟨imported, errors, [], []⟩
  | imported, errors, r :: rest =>
    match convertRow parse r with
    | none => importLoopGo parse imported (errors + 1) rest
    | some c =>
      let o := importLoopGo parse (imported + 1) errors rest
      { o with
        inserted := c :: o.inserted
        trace :=
          (if (imported + 1) % 100 = 0 then [Event.insert c, Event.commit]
           else [Event.insert c]) ++ o.trace }

/-- The import loop started from zeroed counters (lines 63-64). -/
def importLoop (parse : String → Option Rat) (rows : List Row) : LoopOut :=
  importLoopGo parse 0 0 rows

/-- Row ordering of the sample query: by `transaction_date`, compared
lexicographically. -/
def dateLe (a b : ConvRow) : Prop :=
  charListLe a.transaction_date.data b.transaction_date.data = true

instance : DecidableRel dateLe := fun a b => by
  unfold dateLe; infer_instance

/-- Sorting used by the sample query `SELECT TOP 5 * FROM transactions ORDER
BY transaction_date` (line 128). -/
def sortRows (t : List ConvRow) : List ConvRow :=
  List.insertionSort dateLe t

/-- The report step, lines 120-132: print the imported total, print the
error total only when it is positive (line 123), then fetch and print the
first five rows of the table ordered by `transaction_date`. -/
def report (imported errors : Nat) (table : List ConvRow) : List ROut :=
  [ROut.importedLine imported] ++
    (if errors > 0 then [ROut.errorsLine errors] else []) ++
    ((sortRows table).take 5).map ROut.sampleRow

/-- Everything observable about one call of `import_csv_data`: the final
table contents, how the call ended, the database events it issued, and the
report lines it printed. -/
structure ImportOut where
  table : List ConvRow
  result : RunResult
  events : List Event
  output : List ROut
  deriving Repr, DecidableEq

/-- The read-and-insert phase of `import_csv_data` (lines 66-132), entered
with the table contents after the optional truncate and any events already
issued.  A missing or unreadable file is `sys.exit(1)` (lines 113-118); the
final commit of the loop is line 111; the report runs on completion. -/
def runImport (parse : String → Option Rat) (table : List ConvRow)
    (pre : List Event) (file : FileOutcome) : ImportOut :=
  match file with
  | .missing => ⟨table, .fatal 1, pre, []⟩
  | .readError => ⟨table, .fatal 1, pre, []⟩
  | .ok rows =>
    let o := importLoop parse rows
    let table1 := table ++ o.inserted
    ⟨table1, .completed o.imported o.errors,
      pre ++ o.trace ++ [Event.commit],
      report o.imported o.errors table1⟩

/-- `import_csv_data` (lines 35-132).  `table` is the current contents of
the `transactions` table (so `existing_count` is its length, line 41) and
`response` the answer the operator gives to the reimport prompt, read only when the
table is non-empty.  Answering anything whose lowercase is not `"yes"`
cancels the run with no events (lines 50-52); `"yes"` truncates and commits
(lines 47-48) before the insert phase. -/
def import_csv_data (parse : String → Option Rat) (table : List ConvRow)
    (response : String) (file : FileOutcome) : ImportOut :=
  if 0 < table.length then
    if strLower response = "yes" then
      runImport parse [] [Event.truncate, Event.commit] file
    else
      ⟨table, .cancelled, [], []⟩
  else
    runImport parse table [] file

/-- Outcome of `pyodbc.connect` in `get_connection` (lines 27-33): a
failure is `sys.exit(1)` before any further work. -/
inductive ConnOutcome where
  | ok
  | fail
  deriving Repr, DecidableEq

/-- Everything observable about one run of `main`: final table contents,
process exit code, database events, report lines. -/
structure MainOut where
  table : List ConvRow
  exitCode : Nat
  events : List Event
  output : List ROut
  deriving Repr, DecidableEq

/-- `main` (lines 134-146): acquire the connection (exit 1 on failure, line
33), run `import_csv_data` inside `try`, and close the connection in the
`finally` block — which also runs when `import_csv_data` calls `sys.exit`,
since `SystemExit` passes through `finally`.  A non-fatal return of
`import_csv_data` ends the process with exit code 0. -/
def main (parse : String → Option Rat) (conn : ConnOutcome)
    (table : List ConvRow) (response : String) (file : FileOutcome) :
    MainOut :=
  match conn with
  | .fail => ⟨table, 1, [], []⟩
  | .ok =>
    let o := import_csv_data parse table response file
    let code := match o.result with
      | .fatal c => c
      | _ => 0
    ⟨o.table, code, o.events ++ [Event.close], o.output⟩

/-- A row is well-formed for a given parser when the per-row conversion
succeeds, i.e. the per-row `try` body raises nothing. -/
def wellFormed (parse : String → Option Rat) (r : Row) : Prop :=
  (convertRow parse r).isSome

instance (parse : String → Option Rat) (r : Row) :
    Decidable (wellFormed parse r) := by
  unfold wellFormed; infer_instance

/-- Number of `insert` events in a trace. -/
def insertsIn (t : List Event) : Nat :=
  t.countP (fun e => match e with | .insert _ => true | _ => false)

/-- Number of `commit` events in a trace. -/
def commitsIn (t : List Event) : Nat :=
  t.countP (fun e => match e with | .commit => true | _ => false)

/-- A sample numeric parser used to run the model on concrete inputs:
accepts non-empty decimal digit strings only. -/
def natParse (s : String) : Option Rat :=
  if s.data ≠ [] ∧ s.data.all Char.isDigit then
    some ((s.data.foldl (fun n c => 10 * n + (c.toNat - 48)) 0 : Nat) : Rat)
  else none

/-- A concrete CSV row for running the model: all fields empty except the
date and the amount. -/
def sampRow (d a : String) : Row :=
  { transaction_id := ""
    transaction_date := d
    transaction_time := ""
    account_id := ""
    account_name := ""
    account_type := ""
    account_owner := ""
    description := ""
    category := ""
    subcategory := ""
    amount := a
    transaction_type := ""
    balance_after := ""
    is_recurring := ""
    recurring_frequency := ""
    notes := "" }

/-- The converted form of `sampRow`: empty strings for the four nullable
fields became nulls. -/
def sampConv (d : String) (q : Rat) : ConvRow :=
  { transaction_id := ""
    transaction_date := d
    transaction_time := ""
    account_id := ""
    account_name := ""
    account_type := ""
    account_owner := ""
    description := ""
    category := ""
    subcategory := ""
    amount := q
    transaction_type := ""
    balance_after := none
    is_recurring := none
    recurring_frequency := none
    notes := none }

/-- A concrete CSV row exercising every conversion branch: `is_recurring`
is the literal `"True"`, `recurring_frequency` is empty, `notes` is
non-empty, `balance_after` is empty, the amount is parseable. -/
def rowA : Row :=
  { sampRow "2024-01-01" "12" with is_recurring := "True", notes := "n" }

/-- The converted form of `rowA`. -/
def convA : ConvRow :=
  { sampConv "2024-01-01" 12 with is_recurring := some 1, notes := some "n" }

/-- A trace only commits at points where the number of inserts issued so
far, added to the starting count `k`, is a positive multiple of 100, and
every commit comes immediately after an insert. -/
def commitsAtMultiples (k : Nat) (t : List Event) : Prop :=
  ∀ p q, t = p ++ Event.commit :: q →
    (k + insertsIn p) % 100 = 0 ∧ 0 < k + insertsIn p ∧
      ∃ p1 c, p = p1 ++ [Event.insert c]

@[simp] theorem insertsIn_nil : insertsIn [] = 0 := rfl

@[simp] theorem insertsIn_insert (c : ConvRow) (t : List Event) :
    insertsIn (Event.insert c :: t) = insertsIn t + 1 := by
  simp [insertsIn, List.countP_cons]

@[simp] theorem insertsIn_commit (t : List Event) :
    insertsIn (Event.commit :: t) = insertsIn t := by
  simp [insertsIn, List.countP_cons]

@[simp] theorem insertsIn_append (s t : List Event) :
    insertsIn (s ++ t) = insertsIn s + insertsIn t := by
  simp [insertsIn, List.countP_append]

@[simp] theorem commitsIn_nil : commitsIn [] = 0 := rfl

@[simp] theorem commitsIn_insert (c : ConvRow) (t : List Event) :
    commitsIn (Event.insert c :: t) = commitsIn t := by
  simp [commitsIn, List.countP_cons]

@[simp] theorem commitsIn_commit (t : List Event) :
    commitsIn (Event.commit :: t) = commitsIn t + 1 := by
  simp [commitsIn, List.countP_cons]

@[simp] theorem commitsIn_append (s t : List Event) :
    commitsIn (s ++ t) = commitsIn s + commitsIn t := by
  simp [commitsIn, List.countP_append]

theorem importLoopGo_imported (parse : String → Option Rat)
    (rows : List Row) : ∀ i e : Nat,
    (importLoopGo parse i e rows).imported =
      i + rows.countP (fun r => (convertRow parse r).isSome) := by
  induction rows with
  | nil => intro i e; simp [importLoopGo]
  | cons r rest ih =>
    intro i e
    cases h : convertRow parse r with
    | none => simp [importLoopGo, h, List.countP_cons, ih]
    | some c =>
      simp [importLoopGo, h, List.countP_cons, ih]
      omega

theorem importLoopGo_errors (parse : String → Option Rat)
    (rows : List Row) : ∀ i e : Nat,
    (importLoopGo parse i e rows).errors =
      e + rows.countP (fun r => (convertRow parse r).isNone) := by
  induction rows with
  | nil => intro i e; simp [importLoopGo]
  | cons r rest ih =>
    intro i e
    cases h : convertRow parse r with
    | none =>
      simp [importLoopGo, h, List.countP_cons, ih]
      omega
    | some c => simp [importLoopGo, h, List.countP_cons, ih]

theorem importLoopGo_inserted (parse : String → Option Rat)
    (rows : List Row) : ∀ i e : Nat,
    (importLoopGo parse i e rows).inserted =
      rows.filterMap (convertRow parse) := by
  induction rows with
  | nil => intro i e; simp [importLoopGo]
  | cons r rest ih =>
    intro i e
    cases h : convertRow parse r with
    | none => simp [importLoopGo, h, List.filterMap_cons, ih]
    | some c => simp [importLoopGo, h, List.filterMap_cons, ih]

theorem importLoopGo_insertsIn (parse : String → Option Rat)
    (rows : List Row) : ∀ i e : Nat,
    insertsIn (importLoopGo parse i e rows).trace =
      rows.countP (fun r => (convertRow parse r).isSome) := by
  induction rows with
  | nil => intro i e; simp [importLoopGo]
  | cons r rest ih =>
    intro i e
    cases h : convertRow parse r with
    | none => simp [importLoopGo, h, List.countP_cons, ih]
    | some c =>
      by_cases hc : (i + 1) % 100 = 0 <;>
        simp [importLoopGo, h, List.countP_cons, ih, hc]

theorem importLoopGo_commitsIn (parse : String → Option Rat)
    (rows : List Row) : ∀ i e : Nat,
    commitsIn (importLoopGo parse i e rows).trace =
      (i + rows.countP (fun r => (convertRow parse r).isSome)) / 100 -
        i / 100 := by
  induction rows with
  | nil => intro i e; simp [importLoopGo]
  | cons r rest ih =>
    intro i e
    cases h : convertRow parse r with
    | none => simp [importLoopGo, h, List.countP_cons, ih]
    | some c =>
      simp only [importLoopGo, h]
      by_cases hc : (i + 1) % 100 = 0
      · rw [if_pos hc]
        simp [commitsIn_append, commitsIn_insert, commitsIn_commit,
          commitsIn_nil, List.cons_append, List.nil_append, ih, h,
          List.countP_cons]
        omega
      · rw [if_neg hc]
        simp [commitsIn_append, commitsIn_insert, commitsIn_nil,
          List.cons_append, List.nil_append, ih, h, List.countP_cons]
        omega

theorem charListLe_total (a : List Char) : ∀ b : List Char,
    charListLe a b = true ∨ charListLe b a = true := by
  induction a with
  | nil => intro b; left; rfl
  | cons x xs ih =>
    intro b
    cases b with
    | nil => right; rfl
    | cons y ys =>
      by_cases hlt : x.toNat < y.toNat
      · left; simp [charListLe, hlt]
      · by_cases heq : x.toNat = y.toNat
        · rcases ih ys with h | h
          · left; simp [charListLe, hlt, heq, h]
          · right; simp [charListLe, heq, h]
        · right; simp [charListLe]; omega

theorem charListLe_trans (a : List Char) : ∀ b c : List Char,
    charListLe a b = true → charListLe b c = true → charListLe a c = true := by
  induction a with
  | nil => intro b c h1 h2; rfl
  | cons x xs ih =>
    intro b c h1 h2
    cases b with
    | nil => simp [charListLe] at h1
    | cons y ys =>
      cases c with
      | nil => simp [charListLe] at h2
      | cons z zs =>
        simp only [charListLe] at h1 h2 ⊢
        by_cases hxy : x.toNat < y.toNat <;>
          by_cases hyz : y.toNat < z.toNat <;>
            by_cases hxz : x.toNat < z.toNat <;>
              simp [hxy, hyz, hxz] at h1 h2 ⊢ <;>
                try omega
        · exact ⟨h1.1.trans h2.1, ih ys zs h1.2 h2.2⟩

theorem sortRows_perm (t : List ConvRow) : (sortRows t).Perm t :=
  List.perm_insertionSort dateLe t

theorem sortRows_sorted (t : List ConvRow) :
    List.Pairwise dateLe (sortRows t) :=
  @List.sorted_insertionSort ConvRow dateLe _
    ⟨fun _ _ => charListLe_total _ _⟩ ⟨fun _ _ _ => charListLe_trans _ _ _⟩ t

theorem length_filterMap_convertRow (parse : String → Option Rat)
    (rows : List Row) :
    (rows.filterMap (convertRow parse)).length =
      rows.countP (fun r => (convertRow parse r).isSome) := by
  induction rows with
  | nil => simp
  | cons r rest ih =>
    cases h : convertRow parse r <;>
      simp [List.filterMap_cons, h, List.countP_cons, ih]

theorem convertRow_eq_none_of_amount (parse : String → Option Rat) (r : Row)
    (h : parse r.amount = none) : convertRow parse r = none := by
  cases hb : (if r.balance_after = "" then some (none : Option Rat)
              else (parse r.balance_after).map some) <;>
    simp [convertRow, h, hb]

theorem importLoopGo_commitsAtMultiples (parse : String → Option Rat)
    (rows : List Row) : ∀ i e : Nat,
    commitsAtMultiples i (importLoopGo parse i e rows).trace := by
  induction rows with
  | nil =>
    intro i e p q hpq
    simp only [importLoopGo] at hpq
    cases p <;> simp at hpq
  | cons r rest ih =>
    intro i e
    cases h : convertRow parse r with
    | none =>
      intro p q hpq
      simp only [importLoopGo, h] at hpq
      exact ih i (e + 1) p q hpq
    | some c =>
      intro p q hpq
      simp only [importLoopGo, h] at hpq
      by_cases hc : (i + 1) % 100 = 0
      · rw [if_pos hc] at hpq
        simp only [List.cons_append, List.nil_append] at hpq
        cases p with
        | nil => simp at hpq
        | cons x p1 =>
          simp only [List.cons_append, List.cons.injEq] at hpq
          obtain ⟨hx, hpq1⟩ := hpq
          subst hx
          cases p1 with
          | nil =>
            refine ⟨by simpa using hc, by simp, [], c, by simp⟩
          | cons y p2 =>
            simp only [List.cons_append, List.cons.injEq] at hpq1
            obtain ⟨hy, hpq2⟩ := hpq1
            subst hy
            obtain ⟨hmod, hpos, p3, c3, hp3⟩ := ih (i + 1) e p2 q hpq2
            subst hp3
            refine ⟨?_, ?_, Event.insert c :: Event.commit :: p3, c3, by simp⟩
            · simp only [insertsIn_insert, insertsIn_commit,
                insertsIn_append] at hmod ⊢
              omega
            · simp
      · rw [if_neg hc] at hpq
        simp only [List.cons_append, List.nil_append] at hpq
        cases p with
        | nil => simp at hpq
        | cons x p1 =>
          simp only [List.cons_append, List.cons.injEq] at hpq
          obtain ⟨hx, hpq1⟩ := hpq
          subst hx
          obtain ⟨hmod, hpos, p3, c3, hp3⟩ := ih (i + 1) e p1 q hpq1
          subst hp3
          refine ⟨?_, ?_, Event.insert c :: p3, c3, by simp⟩
          · simp only [insertsIn_insert, insertsIn_append] at hmod ⊢
            omega
          · simp

/-- C1: for a CSV whose rows are all well-formed, an initially empty
transactions table and a reachable database, the import inserts exactly one
table row per CSV row and finishes with `imported_count` equal to the number
of rows and `error_count` equal to 0. -/
theorem C1_clean_table_import (parse : String → Option Rat)
    (rows : List Row) (response : String)
    (hwf : ∀ r ∈ rows, wellFormed parse r) :
    (import_csv_data parse [] response (FileOutcome.ok rows)).result =
      RunResult.completed rows.length 0 ∧
    (import_csv_data parse [] response (FileOutcome.ok rows)).table.length =
      rows.length := by
  have hcount : rows.countP (fun r => (convertRow parse r).isSome) =
      rows.length :=
    List.countP_eq_length.mpr (fun a ha => hwf a ha)
  have herr : rows.countP (fun r => (convertRow parse r).isNone) = 0 := by
    rw [List.countP_eq_zero]
    intro a ha
    cases hx : convertRow parse a with
    | none => exact absurd (hwf a ha) (by simp [wellFormed, hx])
    | some c => simp [hx]
  constructor
  · simp [import_csv_data, runImport, importLoop, importLoopGo_imported,
      importLoopGo_errors, hcount, herr]
  · simp [import_csv_data, runImport, importLoop, importLoopGo_inserted,
      length_filterMap_convertRow, hcount]

/-- C1 witness: a one-row well-formed CSV at a concrete input. -/
theorem C1_witness :
    (∀ r ∈ [sampRow "d" "1"], wellFormed natParse r) ∧
    ((import_csv_data natParse [] "x"
        (FileOutcome.ok [sampRow "d" "1"])).result =
      RunResult.completed ([sampRow "d" "1"]).length 0 ∧
    (import_csv_data natParse [] "x"
        (FileOutcome.ok [sampRow "d" "1"])).table.length =
      ([sampRow "d" "1"]).length) :=
  ⟨by decide, C1_clean_table_import natParse [sampRow "d" "1"] "x" (by decide)⟩

/-- C2: a row whose amount does not parse is skipped — its conversion fails
before any insert is attempted, so it contributes no insert event and no
table row — the error counter ends at exactly 1, and all the other
(well-formed) rows of the file are still imported. -/
theorem C2_unparseable_amount_skipped (parse : String → Option Rat)
    (pre post : List Row) (r : Row) (response : String)
    (hbad : parse r.amount = none)
    (hwf : ∀ x ∈ pre ++ post, wellFormed parse x) :
    (import_csv_data parse [] response
        (FileOutcome.ok (pre ++ r :: post))).result =
      RunResult.completed (pre.length + post.length) 1 ∧
    (import_csv_data parse [] response
        (FileOutcome.ok (pre ++ r :: post))).table =
      (pre ++ post).filterMap (convertRow parse) ∧
    insertsIn (import_csv_data parse [] response
        (FileOutcome.ok (pre ++ r :: post))).events =
      pre.length + post.length := by
  have hr : convertRow parse r = none := convertRow_eq_none_of_amount parse r hbad
  have hwfpre : ∀ x ∈ pre, wellFormed parse x := fun x hx =>
    hwf x (List.mem_append_left _ hx)
  have hwfpost : ∀ x ∈ post, wellFormed parse x := fun x hx =>
    hwf x (List.mem_append_right _ hx)
  have hcpre : pre.countP (fun x => (convertRow parse x).isSome) =
      pre.length := List.countP_eq_length.mpr (fun a ha => hwfpre a ha)
  have hcpost : post.countP (fun x => (convertRow parse x).isSome) =
      post.length := List.countP_eq_length.mpr (fun a ha => hwfpost a ha)
  have hepre : pre.countP (fun x => (convertRow parse x).isNone) = 0 := by
    rw [List.countP_eq_zero]
    intro a ha
    cases hx : convertRow parse a with
    | none => exact absurd (hwfpre a ha) (by simp [wellFormed, hx])
    | some c => simp [hx]
  have hepost : post.countP (fun x => (convertRow parse x).isNone) = 0 := by
    rw [List.countP_eq_zero]
    intro a ha
    cases hx : convertRow parse a with
    | none => exact absurd (hwfpost a ha) (by simp [wellFormed, hx])
    | some c => simp [hx]
  refine ⟨?_, ?_, ?_⟩
  · simp [import_csv_data, runImport, importLoop, importLoopGo_imported,
      importLoopGo_errors, List.countP_append, List.countP_cons, hr,
      hcpre, hcpost, hepre, hepost]
  · simp [import_csv_data, runImport, importLoop, importLoopGo_inserted,
      List.filterMap_append, List.filterMap_cons, hr]
  · simp [import_csv_data, runImport, importLoop, importLoopGo_insertsIn,
      List.countP_append, List.countP_cons, hr, hcpre, hcpost]

/-- C2 witness: a three-row file whose middle row has the unparseable
amount `"x"`. -/
theorem C2_witness :
    natParse (sampRow "b" "x").amount = none ∧
    (∀ x ∈ [sampRow "a" "1"] ++ [sampRow "c" "2"], wellFormed natParse x) ∧
    ((import_csv_data natParse [] "q"
        (FileOutcome.ok ([sampRow "a" "1"] ++ sampRow "b" "x" :: [sampRow "c" "2"]))).result =
      RunResult.completed (([sampRow "a" "1"]).length + ([sampRow "c" "2"]).length) 1 ∧
    (import_csv_data natParse [] "q"
        (FileOutcome.ok ([sampRow "a" "1"] ++ sampRow "b" "x" :: [sampRow "c" "2"]))).table =
      ([sampRow "a" "1"] ++ [sampRow "c" "2"]).filterMap (convertRow natParse) ∧
    insertsIn (import_csv_data natParse [] "q"
        (FileOutcome.ok ([sampRow "a" "1"] ++ sampRow "b" "x" :: [sampRow "c" "2"]))).events =
      ([sampRow "a" "1"]).length + ([sampRow "c" "2"]).length) :=
  ⟨by decide, by decide,
    C2_unparseable_amount_skipped natParse [sampRow "a" "1"] [sampRow "c" "2"]
      (sampRow "b" "x") "q" (by decide) (by decide)⟩

/-- C3: the per-field conversion maps empty `is_recurring`,
`recurring_frequency`, `notes` and `balance_after` to null; maps the
literal `"True"` in `is_recurring` to 1 and any other non-empty value to 0;
and passes non-empty `balance_after` and the `amount` through the numeric
parser. -/
theorem C3_field_conversions (parse : String → Option Rat) (r : Row)
    (c : ConvRow) (h : convertRow parse r = some c) :
    (r.is_recurring = "" → c.is_recurring = none) ∧
    (r.is_recurring = "True" → c.is_recurring = some 1) ∧
    (r.is_recurring ≠ "" → r.is_recurring ≠ "True" →
      c.is_recurring = some 0) ∧
    (r.recurring_frequency = "" → c.recurring_frequency = none) ∧
    (r.recurring_frequency ≠ "" →
      c.recurring_frequency = some r.recurring_frequency) ∧
    (r.notes = "" → c.notes = none) ∧
    (r.notes ≠ "" → c.notes = some r.notes) ∧
    (r.balance_after = "" → c.balance_after = none) ∧
    (r.balance_after ≠ "" →
      ∃ q, parse r.balance_after = some q ∧ c.balance_after = some q) ∧
    (∃ q, parse r.amount = some q ∧ c.amount = q) := by
  cases ha : parse r.amount with
  | none =>
    rw [convertRow_eq_none_of_amount parse r ha] at h
    exact absurd h (by simp)
  | some amt =>
    by_cases hba : r.balance_after = ""
    · simp [convertRow, hba, ha] at h
      subst h
      refine ⟨?_, ?_, ?_, ?_, ?_, ?_, ?_, ?_, ?_, amt, rfl, rfl⟩
      · intro h1; simp [h1]
      · intro h1; simp [h1]
      · intro h1 h2; simp [h1, h2]
      · intro h1; simp [h1]
      · intro h1; simp [h1]
      · intro h1; simp [h1]
      · intro h1; simp [h1]
      · intro _; rfl
      · intro h1; exact absurd hba h1
    · cases hpb : parse r.balance_after with
      | none =>
        exfalso
        revert h
        simp [convertRow, hba, hpb]
      | some q =>
        simp [convertRow, hba, ha, hpb] at h
        subst h
        refine ⟨?_, ?_, ?_, ?_, ?_, ?_, ?_, ?_, ?_, amt, rfl, rfl⟩
        · intro h1; simp [h1]
        · intro h1; simp [h1]
        · intro h1 h2; simp [h1, h2]
        · intro h1; simp [h1]
        · intro h1; simp [h1]
        · intro h1; simp [h1]
        · intro h1; simp [h1]
        · intro h1; exact absurd h1 hba
        · intro _; exact ⟨q, rfl, rfl⟩

/-- C3 witness: a concrete row with `is_recurring = "True"`, empty
`recurring_frequency` and `balance_after`, non-empty notes, and a parseable
amount. -/
theorem C3_witness :
    convertRow natParse rowA = some convA ∧
    (rowA.is_recurring = "True" → convA.is_recurring = some 1) ∧
    (rowA.recurring_frequency = "" → convA.recurring_frequency = none) ∧
    (rowA.balance_after = "" → convA.balance_after = none) ∧
    (∃ q, natParse rowA.amount = some q ∧ convA.amount = q) :=
  have h : convertRow natParse rowA = some convA := by decide
  have hall := C3_field_conversions natParse rowA convA h
  ⟨h, hall.2.1, hall.2.2.2.1, hall.2.2.2.2.2.2.2.1,
    hall.2.2.2.2.2.2.2.2.2⟩

/-- C4: with a non-empty table and an affirmative answer, the truncate is
the first database event — so the table is fully cleared before any insert —
the old rows are gone from the final table, and with no per-row errors the
post-import row count equals the CSV row count. -/
theorem C4_yes_truncates_before_import (parse : String → Option Rat)
    (table : List ConvRow) (response : String) (rows : List Row)
    (hne : 0 < table.length) (hyes : strLower response = "yes")
    (hwf : ∀ r ∈ rows, wellFormed parse r) :
    (import_csv_data parse table response (FileOutcome.ok rows)).events.head? =
      some Event.truncate ∧
    (∀ p q c,
      (import_csv_data parse table response (FileOutcome.ok rows)).events =
        p ++ Event.insert c :: q → Event.truncate ∈ p) ∧
    (import_csv_data parse table response (FileOutcome.ok rows)).table =
      rows.filterMap (convertRow parse) ∧
    (import_csv_data parse table response (FileOutcome.ok rows)).table.length =
      rows.length := by
  have hcount : rows.countP (fun r => (convertRow parse r).isSome) =
      rows.length :=
    List.countP_eq_length.mpr (fun a ha => hwf a ha)
  have hev :
      (import_csv_data parse table response (FileOutcome.ok rows)).events =
        Event.truncate :: Event.commit ::
          ((importLoop parse rows).trace ++ [Event.commit]) := by
    simp [import_csv_data, hne, hyes, runImport]
  refine ⟨?_, ?_, ?_, ?_⟩
  · rw [hev]; rfl
  · intro p q c hpq
    rw [hev] at hpq
    cases p with
    | nil => simp at hpq
    | cons x p1 =>
      simp only [List.cons_append, List.cons.injEq] at hpq
      rw [← hpq.1]
      exact List.mem_cons_self _ _
  · simp [import_csv_data, hne, hyes, runImport, importLoop,
      importLoopGo_inserted]
  · simp [import_csv_data, hne, hyes, runImport, importLoop,
      importLoopGo_inserted, length_filterMap_convertRow, hcount]

/-- C4 witness: a one-element table, the answer `"YES"`, and a one-row
well-formed CSV. -/
theorem C4_witness :
    0 < ([sampConv "z" 0] : List ConvRow).length ∧
    strLower "YES" = "yes" ∧
    (∀ r ∈ [sampRow "d" "1"], wellFormed natParse r) ∧
    ((import_csv_data natParse [sampConv "z" 0] "YES"
        (FileOutcome.ok [sampRow "d" "1"])).events.head? =
      some Event.truncate ∧
    (∀ p q c,
      (import_csv_data natParse [sampConv "z" 0] "YES"
          (FileOutcome.ok [sampRow "d" "1"])).events =
        p ++ Event.insert c :: q → Event.truncate ∈ p) ∧
    (import_csv_data natParse [sampConv "z" 0] "YES"
        (FileOutcome.ok [sampRow "d" "1"])).table =
      ([sampRow "d" "1"]).filterMap (convertRow natParse) ∧
    (import_csv_data natParse [sampConv "z" 0] "YES"
        (FileOutcome.ok [sampRow "d" "1"])).table.length =
      ([sampRow "d" "1"]).length) :=
  ⟨by decide, by decide, by decide,
    C4_yes_truncates_before_import natParse [sampConv "z" 0] "YES"
      [sampRow "d" "1"] (by decide) (by decide) (by decide)⟩

/-- C5: with a non-empty table and the answer `"no"`, the function returns
immediately: the result is the cancelled one, the table is exactly as
before, and no database event — insert or truncate — is issued at all. -/
theorem C5_declined_reimport (parse : String → Option Rat)
    (table : List ConvRow) (response : String) (file : FileOutcome)
    (hne : 0 < table.length) (hno : strLower response = "no") :
    import_csv_data parse table response file =
      ⟨table, RunResult.cancelled, [], []⟩ := by
  have hys : ¬ strLower response = "yes" := by rw [hno]; decide
  simp [import_csv_data, hne, hys]

/-- C5 witness: a one-element table and the answer `"No"`. -/
theorem C5_witness :
    0 < ([sampConv "z" 0] : List ConvRow).length ∧
    strLower "No" = "no" ∧
    import_csv_data natParse [sampConv "z" 0] "No" FileOutcome.missing =
      ⟨[sampConv "z" 0], RunResult.cancelled, [], []⟩ :=
  ⟨by decide, by decide,
    C5_declined_reimport natParse [sampConv "z" 0] "No" FileOutcome.missing
      (by decide) (by decide)⟩

/-- C9: in every run in which the connection was acquired — whatever the
table, the prompt answer or the file outcome, so on normal completion,
declined reimport and the fatal missing-file exit alike — the close event is
issued, and it is the last database event before the process terminates. -/
theorem C9_connection_closed_on_exit (parse : String → Option Rat)
    (table : List ConvRow) (response : String) (file : FileOutcome) :
    Event.close ∈ (main parse ConnOutcome.ok table response file).events ∧
    (main parse ConnOutcome.ok table response file).events.getLast? =
      some Event.close := by
  constructor
  · simp [main]
  · simp [main, List.getLast?_concat]

/-- C10: with a non-empty table, the truncate happens exactly when the
lowercased response is the string `"yes"`; any other response — `"y"`, an
empty line, `"yes"` with surrounding whitespace — cancels the run with the
table untouched. -/
theorem C10_truncate_iff_exact_yes (parse : String → Option Rat)
    (table : List ConvRow) (response : String) (file : FileOutcome)
    (hne : 0 < table.length) :
    (Event.truncate ∈ (import_csv_data parse table response file).events ↔
      strLower response = "yes") ∧
    (strLower response ≠ "yes" →
      import_csv_data parse table response file =
        ⟨table, RunResult.cancelled, [], []⟩) := by
  constructor
  · by_cases hr : strLower response = "yes"
    · simp only [import_csv_data, if_pos hne, if_pos hr]
      refine ⟨fun _ => hr, fun _ => ?_⟩
      cases file <;> simp [runImport]
    · simp [import_csv_data, hne, hr]
  · intro hr
    simp [import_csv_data, hne, hr]

/-- C10 witness: the response `" yes "` — surrounding whitespace — does not
truncate and cancels the run. -/
theorem C10_witness :
    0 < ([sampConv "z" 0] : List ConvRow).length ∧
    ((Event.truncate ∈
        (import_csv_data natParse [sampConv "z" 0] " yes "
          FileOutcome.missing).events ↔
      strLower " yes " = "yes") ∧
    (strLower " yes " ≠ "yes" →
      import_csv_data natParse [sampConv "z" 0] " yes "
          FileOutcome.missing =
        ⟨[sampConv "z" 0], RunResult.cancelled, [], []⟩)) :=
  ⟨by decide,
    C10_truncate_iff_exact_yes natParse [sampConv "z" 0] " yes "
      FileOutcome.missing (by decide)⟩

/-- C6: in any run that reaches the insert phase, the database events are
the optional truncate-and-commit prefix, then the insert-phase trace `t`,
then exactly one end-of-stream commit; within `t` there is one insert per
imported row, the number of commits is `imported / 100`, and every commit
sits immediately after an insert at a point where the number of inserts so
far is a positive multiple of 100 — failed rows emit nothing and so do not
advance the cadence. -/
theorem C6_commit_cadence (parse : String → Option Rat) (rows : List Row)
    (table : List ConvRow) (response : String)
    (hrun : table.length = 0 ∨ strLower response = "yes") :
    ∃ t : List Event,
      (import_csv_data parse table response (FileOutcome.ok rows)).events =
        (if 0 < table.length then [Event.truncate, Event.commit] else []) ++
          t ++ [Event.commit] ∧
      insertsIn t = (importLoop parse rows).imported ∧
      commitsIn t = (importLoop parse rows).imported / 100 ∧
      commitsAtMultiples 0 t := by
  refine ⟨(importLoop parse rows).trace, ?_, ?_, ?_,
    importLoopGo_commitsAtMultiples parse rows 0 0⟩
  · rcases hrun with h0 | hy
    · have h1 : ¬ 0 < table.length := by omega
      simp [import_csv_data, h1, runImport]
    · by_cases h0 : 0 < table.length
      · simp [import_csv_data, h0, hy, runImport]
      · simp [import_csv_data, h0, runImport]
  · rw [importLoop, importLoopGo_insertsIn, importLoopGo_imported]
    omega
  · rw [importLoop, importLoopGo_commitsIn, importLoopGo_imported]
    omega

/-- C6 witness: an empty table and a one-row file. -/
theorem C6_witness :
    (([] : List ConvRow).length = 0 ∨ strLower "x" = "yes") ∧
    (∃ t : List Event,
      (import_csv_data natParse [] "x"
          (FileOutcome.ok [sampRow "d" "1"])).events =
        (if 0 < ([] : List ConvRow).length then
            [Event.truncate, Event.commit] else []) ++ t ++ [Event.commit] ∧
      insertsIn t = (importLoop natParse [sampRow "d" "1"]).imported ∧
      commitsIn t = (importLoop natParse [sampRow "d" "1"]).imported / 100 ∧
      commitsAtMultiples 0 t) :=
  ⟨Or.inl rfl,
    C6_commit_cadence natParse [sampRow "d" "1"] [] "x" (Or.inl rfl)⟩

/-- C7 counterexample: with the connection established and the CSV file
present but unreadable (the catch-all `except` of lines 116-118), the
process still exits non-zero, so the exit code is not 0 exactly on
connection failure or a missing file. -/
theorem C7_counterexample :
    (main natParse ConnOutcome.ok [] "no" FileOutcome.readError).exitCode
      = 1 ∧
    FileOutcome.readError ≠ FileOutcome.missing :=
  ⟨rfl, by decide⟩

/-- C7 amended: the process exits 0 exactly when the connection was
established and the run either was the operator-declined reimport or read
the CSV file successfully; it exits non-zero on connection failure, on a
missing CSV file, and on any other CSV read error. -/
theorem C7_amended_exit_codes (parse : String → Option Rat)
    (conn : ConnOutcome) (table : List ConvRow) (response : String)
    (file : FileOutcome) :
    (main parse conn table response file).exitCode = 0 ↔
      (conn = ConnOutcome.ok ∧
        ((0 < table.length ∧ strLower response ≠ "yes") ∨
          ∃ rows, file = FileOutcome.ok rows)) := by
  cases conn with
  | fail => simp [main]
  | ok =>
    by_cases h0 : 0 < table.length
    · by_cases hy : strLower response = "yes"
      · cases file <;> simp [main, import_csv_data, h0, hy, runImport]
      · simp [main, import_csv_data, h0, hy]
    · cases file <;> simp [main, import_csv_data, h0, runImport]

/-- C8 counterexample: a completed import of three well-formed rows with no
errors prints the imported count and then only three sample rows — no error
count line is printed when the error count is zero, and fewer than five
rows are displayed when the table holds fewer than five. -/
theorem C8_counterexample :
    (import_csv_data natParse [] "x"
        (FileOutcome.ok
          [sampRow "2" "1", sampRow "3" "2", sampRow "1" "3"])).output =
      [ROut.importedLine 3, ROut.sampleRow (sampConv "1" 3),
        ROut.sampleRow (sampConv "2" 1), ROut.sampleRow (sampConv "3" 2)] := by
  decide

/-- C8 amended: after every completed import phase the report prints the
total imported count, prints the error count exactly when it is nonzero,
and then displays the first `min 5 N` rows of the final table ordered by
`transaction_date` (`N` the row count of the table): the displayed rows are a
prefix of a sorted permutation of the table. -/
theorem C8_amended_report (parse : String → Option Rat)
    (table : List ConvRow) (response : String) (rows : List Row)
    (hrun : table.length = 0 ∨ strLower response = "yes") :
    ∃ imp err,
      (import_csv_data parse table response (FileOutcome.ok rows)).result =
        RunResult.completed imp err ∧
      (import_csv_data parse table response (FileOutcome.ok rows)).output =
        [ROut.importedLine imp] ++
          (if 0 < err then [ROut.errorsLine err] else []) ++
          ((sortRows ((import_csv_data parse table response
              (FileOutcome.ok rows)).table)).take 5).map ROut.sampleRow ∧
      (sortRows ((import_csv_data parse table response
          (FileOutcome.ok rows)).table)).Perm
        ((import_csv_data parse table response (FileOutcome.ok rows)).table) ∧
      List.Pairwise dateLe
        ((sortRows ((import_csv_data parse table response
            (FileOutcome.ok rows)).table)).take 5) := by
  refine ⟨(importLoop parse rows).imported, (importLoop parse rows).errors,
    ?_, ?_, sortRows_perm _,
    List.Pairwise.sublist (List.take_sublist _ _) (sortRows_sorted _)⟩
  · rcases hrun with h0 | hy
    · have h1 : ¬ 0 < table.length := by omega
      simp [import_csv_data, h1, runImport]
    · by_cases h0 : 0 < table.length
      · simp [import_csv_data, h0, hy, runImport]
      · simp [import_csv_data, h0, runImport]
  · rcases hrun with h0 | hy
    · have h1 : ¬ 0 < table.length := by omega
      simp [import_csv_data, h1, runImport, report]
    · by_cases h0 : 0 < table.length
      · simp [import_csv_data, h0, hy, runImport, report]
      · simp [import_csv_data, h0, runImport, report]

/-- C8 amended witness: an empty table and a one-row file. -/
theorem C8_witness :
    (([] : List ConvRow).length = 0 ∨ strLower "x" = "yes") ∧
    (∃ imp err,
      (import_csv_data natParse [] "x"
          (FileOutcome.ok [sampRow "d" "1"])).result =
        RunResult.completed imp err ∧
      (import_csv_data natParse [] "x"
          (FileOutcome.ok [sampRow "d" "1"])).output =
        [ROut.importedLine imp] ++
          (if 0 < err then [ROut.errorsLine err] else []) ++
          ((sortRows ((import_csv_data natParse [] "x"
              (FileOutcome.ok [sampRow "d" "1"])).table)).take 5).map
            ROut.sampleRow ∧
      (sortRows ((import_csv_data natParse [] "x"
          (FileOutcome.ok [sampRow "d" "1"])).table)).Perm
        ((import_csv_data natParse [] "x"
          (FileOutcome.ok [sampRow "d" "1"])).table) ∧
      List.Pairwise dateLe
        ((sortRows ((import_csv_data natParse [] "x"
            (FileOutcome.ok [sampRow "d" "1"])).table)).take 5)) :=
  ⟨Or.inl rfl,
    C8_amended_report natParse [] "x" [sampRow "d" "1"] (Or.inl rfl)⟩

end ImportCsv
